import Mathlib

/-!
Verification development for the HCT survival prediction service.

The embedding below translates the discrete, decidable parts of the
repository into Lean:

* `app/backend/main.py` — request validation (`PatientInput`), the
  `/predict` handler (`predict_survival`), the explainability routine
  (`get_feature_importance`), the metrics counters, and the model /
  metadata-path logic of `load_model`.
* `scripts/export_model.py` — the synthetic data generator
  (`generate_synthetic_hct_data`), the preprocessor layout
  (`make_preprocessor`) and the sidecar metadata path of
  `train_and_export_model`.

The trained XGBoost pipeline itself is an opaque external artifact; it is
modelled as a `ModelArtifact` record carrying its callable surface
(`predictProba`, the fitted `transformers_` layout, the
`feature_importances_` vector, and a flag describing whether the
introspection code inside `get_feature_importance`'s `try:` block raises
for a given input).  Probabilities are embedded as exact rationals.
-/

/-! ## Patient records and request validation (`main.py`, `PatientInput`) -/

/-- A validated patient record: the nine fields of `PatientInput`
(`main.py` lines 56-93).  Integers are embedded as `ℤ`, enum-valued
fields as `String`. -/
structure PatientInput where
  age : ℤ
  gender : String
  donor_type : String
  comorbidity_score : ℤ
  disease_type : String
  conditioning_intensity : String
  prior_transplants : ℤ
  time_from_diagnosis_days : ℤ
  treatment_days : ℤ
deriving DecidableEq, Repr

/-- Allowed values of `gender` (`validate_gender`). -/
def genderValues : List String := ["Male", "Female"]

/-- Allowed values of `donor_type` (`validate_donor_type`). -/
def donorTypeValues : List String :=
  ["Matched sibling", "Matched unrelated", "Haploidentical", "Cord blood"]

/-- Allowed values of `disease_type` (`validate_disease_type`). -/
def diseaseTypeValues : List String := ["AML", "ALL", "MDS", "Lymphoma", "Other"]

/-- Allowed values of `conditioning_intensity` (`validate_conditioning_intensity`). -/
def conditioningIntensityValues : List String := ["Myeloablative", "Reduced-intensity"]

/-- The validity invariant enforced by `PatientInput`'s `Field` bounds and
custom validators. -/
def PatientInput.Valid (p : PatientInput) : Prop :=
  18 ≤ p.age ∧ p.age ≤ 80 ∧
  p.gender ∈ genderValues ∧
  p.donor_type ∈ donorTypeValues ∧
  0 ≤ p.comorbidity_score ∧ p.comorbidity_score ≤ 10 ∧
  p.disease_type ∈ diseaseTypeValues ∧
  p.conditioning_intensity ∈ conditioningIntensityValues ∧
  0 ≤ p.prior_transplants ∧ p.prior_transplants ≤ 1 ∧
  1 ≤ p.time_from_diagnosis_days ∧ p.time_from_diagnosis_days ≤ 5000 ∧
  1 ≤ p.treatment_days ∧ p.treatment_days ≤ 365

instance (p : PatientInput) : Decidable p.Valid := by
  unfold PatientInput.Valid; infer_instance

/-- An untyped request payload before pydantic validation: each of the
nine fields may be absent. -/
structure RawInput where
  age : Option ℤ
  gender : Option String
  donor_type : Option String
  comorbidity_score : Option ℤ
  disease_type : Option String
  conditioning_intensity : Option String
  prior_transplants : Option ℤ
  time_from_diagnosis_days : Option ℤ
  treatment_days : Option ℤ
deriving DecidableEq, Repr

/-- Validation errors contributed by one integer field with an inclusive
range (pydantic `Field(..., ge=lo, le=hi)`): absence is an error, and an
out-of-range value is an error. -/
def intFieldErrs (name : String) (lo hi : ℤ) : Option ℤ → List String
  | none => [name ++ ": field required"]
  | some v => if lo ≤ v ∧ v ≤ hi then [] else [name ++ ": out of range"]

/-- Validation errors contributed by one enum-valued field (a required
`Field` plus a membership `@validator`). -/
def enumFieldErrs (name : String) (allowed : List String) : Option String → List String
  | none => [name ++ ": field required"]
  | some s => if s ∈ allowed then [] else [name ++ ": value not permitted"]

/-- All field-level validation errors of a payload, in field order, as
pydantic collects them for the 422 body. -/
def validationErrors (r : RawInput) : List String :=
  intFieldErrs "age" 18 80 r.age ++
  enumFieldErrs "gender" genderValues r.gender ++
  enumFieldErrs "donor_type" donorTypeValues r.donor_type ++
  intFieldErrs "comorbidity_score" 0 10 r.comorbidity_score ++
  enumFieldErrs "disease_type" diseaseTypeValues r.disease_type ++
  enumFieldErrs "conditioning_intensity" conditioningIntensityValues r.conditioning_intensity ++
  intFieldErrs "prior_transplants" 0 1 r.prior_transplants ++
  intFieldErrs "time_from_diagnosis_days" 1 5000 r.time_from_diagnosis_days ++
  intFieldErrs "treatment_days" 1 365 r.treatment_days

/-- Pydantic validation of a request body: either a fully validated
`PatientInput` or the collected field errors.  When no field has an
error every field is present, so the `getD` defaults are never used. -/
def validatePatient (r : RawInput) : Except (List String) PatientInput :=
  if validationErrors r = [] then
    .ok { age := r.age.getD 0
          gender := r.gender.getD ""
          donor_type := r.donor_type.getD ""
          comorbidity_score := r.comorbidity_score.getD 0
          disease_type := r.disease_type.getD ""
          conditioning_intensity := r.conditioning_intensity.getD ""
          prior_transplants := r.prior_transplants.getD 0
          time_from_diagnosis_days := r.time_from_diagnosis_days.getD 0
          treatment_days := r.treatment_days.getD 0 }
  else .error (validationErrors r)

/-- A payload violating the schema: some field is absent, out of its
numeric range, or not in its enum. -/
def RawViolation (r : RawInput) : Prop :=
  r.age = none ∨ (∃ v, r.age = some v ∧ ¬(18 ≤ v ∧ v ≤ 80)) ∨
  r.gender = none ∨ (∃ s, r.gender = some s ∧ s ∉ genderValues) ∨
  r.donor_type = none ∨ (∃ s, r.donor_type = some s ∧ s ∉ donorTypeValues) ∨
  r.comorbidity_score = none ∨
    (∃ v, r.comorbidity_score = some v ∧ ¬(0 ≤ v ∧ v ≤ 10)) ∨
  r.disease_type = none ∨ (∃ s, r.disease_type = some s ∧ s ∉ diseaseTypeValues) ∨
  r.conditioning_intensity = none ∨
    (∃ s, r.conditioning_intensity = some s ∧ s ∉ conditioningIntensityValues) ∨
  r.prior_transplants = none ∨
    (∃ v, r.prior_transplants = some v ∧ ¬(0 ≤ v ∧ v ≤ 1)) ∨
  r.time_from_diagnosis_days = none ∨
    (∃ v, r.time_from_diagnosis_days = some v ∧ ¬(1 ≤ v ∧ v ≤ 5000)) ∨
  r.treatment_days = none ∨ (∃ v, r.treatment_days = some v ∧ ¬(1 ≤ v ∧ v ≤ 365))

/-! ## The model artifact (opaque pipeline, `export_model.py` layout) -/

/-- One fitted entry of the `ColumnTransformer.transformers_` list seen by
`get_feature_importance`: its name tag, its input feature names, the
fitted one-hot category levels per input feature (meaningful for the
`'cat'` entry), and whether its one-hot step has
`get_feature_names_out` (the `hasattr` test in `main.py` line 135). -/
structure PreprocTransformer where
  name : String
  features : List String
  categories : List (List String)
  hasGetFeatureNamesOut : Bool
deriving DecidableEq, Repr

/-- The loaded model artifact: the opaque pipeline's callable surface.
`predictProba` returns the positive-class probability, or `.error msg`
when the underlying library call raises with message `msg`.
`explainFails` records, per input, whether the introspection code inside
`get_feature_importance`'s `try:` block raises (`named_steps` access or
`transform`). -/
structure ModelArtifact where
  predictProba : PatientInput → Except String ℚ
  featureImportances : List ℚ
  transformers : List PreprocTransformer
  explainFails : PatientInput → Bool

/-! ## Explainability (`get_feature_importance`, `main.py` lines 119-151) -/

/-- A JSON-ish value in the returned `Dict[str, Any]`: a float score or
the fallback note string. -/
inductive FIValue where
  | num (q : ℚ)
  | str (s : String)
deriving DecidableEq, Repr

/-- The exact fallback mapping returned from the `except` branch. -/
def fallbackNote : List (String × FIValue) :=
  [("note", FIValue.str "Feature importance unavailable")]

/-- `OneHotEncoder.get_feature_names_out(features)`: for each input
feature, one derived name `feature_category` per fitted category level,
feature-major. -/
def oneHotFeatureNames (features : List String) (categories : List (List String)) :
    List String :=
  (features.zip categories).flatMap fun fc => fc.2.map fun c => fc.1 ++ "_" ++ c

/-- One iteration of the feature-name reconstruction loop of `main.py`
lines 131-137: the `'num'` entry extends with its features unchanged;
the `'cat'` entry extends with the one-hot expanded names when its
one-hot step has `get_feature_names_out`; every other entry (such as the
fitted `'remainder'` entry) contributes nothing. -/
def reconstructStep (acc : List String) (t : PreprocTransformer) : List String :=
  if t.name = "num" then acc ++ t.features
  else if t.name = "cat" then
    if t.hasGetFeatureNamesOut then acc ++ oneHotFeatureNames t.features t.categories
    else acc
  else acc

/-- The feature-name reconstruction loop of `main.py` lines 130-137:
walk `transformers_` accumulating `feature_names`. -/
def reconstructFeatureNames (ts : List PreprocTransformer) : List String :=
  ts.foldl reconstructStep []

/-- Python `dict` insertion on an association list: update in place if
the key is present, else append. -/
def dictInsert : List (String × ℚ) → String → ℚ → List (String × ℚ)
  | [], k, v => [(k, v)]
  | e :: rest, k, v => if e.1 = k then (k, v) :: rest else e :: dictInsert rest k v

/-- The `for i, importance in enumerate(feature_importance)` loop of
`main.py` lines 141-143: scores whose index reaches beyond the
reconstructed name list are dropped. -/
def importanceLoop (names : List String) :
    List (String × ℚ) → ℕ → List ℚ → List (String × ℚ)
  | d, _, [] => d
  | d, i, s :: rest =>
      importanceLoop names
        (if i < names.length then dictInsert d (names.getD i "") s else d)
        (i + 1) rest

/-- `importance_dict` built from the scores and the reconstructed names. -/
def buildImportanceDict (scores : List ℚ) (names : List String) :
    List (String × ℚ) :=
  importanceLoop names [] 0 scores

/-- Stable insertion into a list sorted descending by score: the new
element goes before the first strictly smaller score, after equal ones. -/
def insertDesc (p : String × ℚ) : List (String × ℚ) → List (String × ℚ)
  | [] => [p]
  | q :: rest => if q.2 < p.2 then p :: q :: rest else q :: insertDesc p rest

/-- Stable descending sort by score — the behaviour of Python's
`sorted(..., key=lambda x: x[1], reverse=True)` (stable sorts by one key
agree). -/
def sortDesc : List (String × ℚ) → List (String × ℚ)
  | [] => []
  | p :: rest => insertDesc p (sortDesc rest)

/-- The `try:` body of `get_feature_importance`: reconstruct names, zip
scores positionally into `importance_dict`, sort descending, keep the
top 5. -/
def featureImportanceTop5 (m : ModelArtifact) : List (String × ℚ) :=
  let feature_names := reconstructFeatureNames m.transformers
  let importance_dict := buildImportanceDict m.featureImportances feature_names
  (sortDesc importance_dict).take 5

/-- `get_feature_importance` (`main.py` lines 119-151): the whole body is
wrapped in `try/except`; any exception inside the introspection is
absorbed into the fallback note. -/
def get_feature_importance (m : ModelArtifact) (p : PatientInput) :
    List (String × FIValue) :=
  if m.explainFails p then fallbackNote
  else (featureImportanceTop5 m).map fun e => (e.1, FIValue.num e.2)

/-! ## The `/predict` handler and metrics (`main.py` lines 50-54, 171-211) -/

/-- The fixed disclaimer constant of `PredictionResponse`. -/
def disclaimerText : String :=
  "⚠️ FOR RESEARCH/DEMO USE ONLY. NOT FOR CLINICAL DECISION-MAKING."

/-- The `explainability` sub-object of the response. -/
structure Explainability where
  feature_importance : List (String × FIValue)
  notes : String
deriving DecidableEq, Repr

/-- The 200-response body (`PredictionResponse`). -/
structure PredictionResponse where
  probability : ℚ
  prediction : String
  explainability : Explainability
  disclaimer : String
deriving DecidableEq, Repr

/-- The structured log record emitted for each successful prediction
(`main.py` lines 189-195). -/
structure LogRecord where
  patient_data : PatientInput
  probability : ℚ
  prediction : String
deriving DecidableEq, Repr

/-- Process-wide mutable state: the two module-level counters plus the
stream of prediction log records. -/
structure AppState where
  prediction_count : ℕ
  error_count : ℕ
  predictionLog : List LogRecord
deriving DecidableEq, Repr

/-- An HTTP-level outcome of `/predict`. -/
inductive HttpResponse where
  | ok (r : PredictionResponse)
  | unprocessable (errs : List String)
  | serverError (detail : String)
deriving DecidableEq, Repr

/-- The body of `predict_survival` after validation (`main.py` lines
177-211): on success compute the probability, threshold at 0.5, attach
explainability, append a log record, bump `prediction_count`; on an
exception from the model call bump `error_count` and surface
`HTTPException(500, detail=str(e))`. -/
def predict_survival (m : ModelArtifact) (st : AppState) (patient : PatientInput) :
    AppState × HttpResponse :=
  match m.predictProba patient with
  | .ok probability =>
      let prediction_class := if probability > 1/2 then "Likely to survive" else "At risk"
      let feature_importance := get_feature_importance m patient
      let st' : AppState :=
        { st with
          predictionLog := st.predictionLog ++
            [{ patient_data := patient, probability := probability,
               prediction := prediction_class }]
          prediction_count := st.prediction_count + 1 }
      (st', .ok
        { probability := probability
          prediction := prediction_class
          explainability :=
            { feature_importance := feature_importance
              notes := "Higher scores indicate greater influence on survival prediction" }
          disclaimer := disclaimerText })
  | .error e =>
      ({ st with error_count := st.error_count + 1 }, .serverError e)

/-- The full request path for `POST /predict`: FastAPI validates the body
against `PatientInput` before the handler runs; a validation failure
yields 422 and the handler (hence the model) is never invoked. -/
def handlePredict (m : ModelArtifact) (st : AppState) (r : RawInput) :
    AppState × HttpResponse :=
  match validatePatient r with
  | .error errs => (st, .unprocessable errs)
  | .ok patient => predict_survival m st patient

/-! ## Rate limiting (`main.py` lines 31-39, 171-173) -/

/-- Modelled from the spec: the rate limiter itself lives in the
third-party `slowapi` library — the repository only declares
`@limiter.limit("10/minute")` keyed by `get_remote_address`.  Per §5 of
the spec it admits at most 10 invocations per minute per client identity
and drops (never queues) excess requests; we model it as a per-client
sliding 60-second window over the recorded hit timestamps. -/
structure LimiterState where
  hits : List (String × ℕ)
deriving DecidableEq, Repr

/-- The hits of `client` still inside the 60-second window at `now`. -/
def recentHits (ls : LimiterState) (client : String) (now : ℕ) :
    List (String × ℕ) :=
  ls.hits.filter fun e => decide (e.1 = client ∧ now < e.2 + 60)

/-- One rate-limit decision: admit (recording the hit) while fewer than
10 of the client's hits are in the window, otherwise reject leaving the
state unchanged — the request is dropped, not delayed. -/
def rateLimitCheck (ls : LimiterState) (client : String) (now : ℕ) :
    Bool × LimiterState :=
  if (recentHits ls client now).length < 10 then
    (true, ⟨(client, now) :: ls.hits⟩)
  else (false, ls)

/-- Process a sequence of request instants from one client, returning the
admit/reject flag of each call and the final limiter state. -/
def processCalls (client : String) : LimiterState → List ℕ → List Bool × LimiterState
  | ls, [] => ([], ls)
  | ls, t :: ts =>
      let r := rateLimitCheck ls client t
      let rest := processCalls client r.2 ts
      (r.1 :: rest.1, rest.2)

/-! ## Artifact paths (`main.py` line 110, `export_model.py` line 126) -/

/-- Python `str.replace('.pkl', '_info.pkl')` on the character list of a
path: every (left-to-right, non-overlapping) occurrence of `.pkl` is
rewritten to `_info.pkl`. -/
def pyReplacePkl : List Char → List Char
  | '.' :: 'p' :: 'k' :: 'l' :: rest =>
      '_' :: 'i' :: 'n' :: 'f' :: 'o' :: '.' :: 'p' :: 'k' :: 'l' :: pyReplacePkl rest
  | c :: cs => c :: pyReplacePkl cs
  | [] => []

/-- Whether `.pkl` occurs anywhere in a character list. -/
def hasPkl : List Char → Bool
  | '.' :: 'p' :: 'k' :: 'l' :: _ => true
  | _ :: cs => hasPkl cs
  | [] => false

/-- `load_model` (`main.py` line 110):
`info_path = model_path.replace('.pkl', '_info.pkl')`. -/
def load_model_info_path (model_path : String) : String :=
  ⟨pyReplacePkl model_path.data⟩

/-- `train_and_export_model` (`export_model.py` line 126):
`info_path = output_path.replace('.pkl', '_info.pkl')`. -/
def export_info_path (output_path : String) : String :=
  ⟨pyReplacePkl output_path.data⟩

/-- Split a character list at its last `'.'`: the stem before it and the
extension after it, if any dot exists. -/
def lastDotSplit : List Char → Option (List Char × List Char)
  | [] => none
  | c :: cs =>
      match lastDotSplit cs with
      | some (st, ex) => some (c :: st, ex)
      | none => if c = '.' then some ([], cs) else none

/-- The sidecar path as the spec's words describe it: the pipeline path
with its extension replaced by `_info` followed by the same extension.
This definition follows the specification text, to be compared with the
code's `replace`-based paths. -/
def sidecarPathSpecExt (p : String) : String :=
  match lastDotSplit p.data with
  | some (st, ex) => ⟨st ++ ('_' :: 'i' :: 'n' :: 'f' :: 'o' :: '.' :: ex)⟩
  | none => p

/-! ## The synthetic data generator (`export_model.py` lines 18-62) -/

/-- The pseudo-random draws consumed for one row of
`generate_synthetic_hct_data`.  Real-valued draws (`normal`,
`exponential`) are embedded as rationals; `choice` draws as the chosen
string; `poisson` as the drawn natural; `binomial(1, ·)` and the
Bernoulli comparison `rand() < prob_survival` as their Boolean outcomes
(the logistic `prob_survival` involves `exp` and is absorbed into the
Boolean draw); the three `rand() < 0.03` missingness masks as Booleans. -/
structure RowDraws where
  ageRaw : ℚ
  genderPick : String
  donorPick : String
  comorbidityDraw : ℕ
  diseasePick : String
  condPick : String
  priorDraw : Bool
  tfdRaw : ℚ
  treatNoise : ℚ
  survivalDraw : Bool
  missDonor : Bool
  missComorbidity : Bool
  missCond : Bool

/-- `numpy` `clip(lo, hi)` on a rational value. -/
def pyClipQ (q lo hi : ℚ) : ℚ := max lo (min q hi)

/-- `numpy` `clip(lo, hi)` on an integer value. -/
def pyClipZ (x lo hi : ℤ) : ℤ := max lo (min x hi)

/-- `numpy` `astype(int)`: truncation toward zero. -/
def truncQ (q : ℚ) : ℤ := if 0 ≤ q then ⌊q⌋ else ⌈q⌉

/-- One row of the generated dataframe, after the missingness masks:
only `donor_type`, `comorbidity_score` and `conditioning_intensity` can
hold a missing value. -/
structure HctRow where
  age : ℤ
  gender : String
  donor_type : Option String
  comorbidity_score : Option ℕ
  disease_type : String
  conditioning_intensity : Option String
  prior_transplants : ℕ
  time_from_diagnosis_days : ℤ
  treatment_days : ℤ
  survival : ℕ
deriving DecidableEq, Repr

/-- One row of `generate_synthetic_hct_data`, from its draws:
`age = normal(45,12).clip(18,80).astype(int)`,
`time_from_diagnosis_days = exponential(365).astype(int).clip(10,5000)`,
`treatment_days = (30 + comorbidity*5 + normal(0,10)).astype(int).clip(7,365)`,
`prior_transplants = binomial(1, 0.12)`,
`survival = (rand() < prob_survival).astype(int)`, and the three
masked columns replaced by NaN when their mask fires. -/
def makeHctRow (d : RowDraws) : HctRow :=
  { age := truncQ (pyClipQ d.ageRaw 18 80)
    gender := d.genderPick
    donor_type := if d.missDonor then none else some d.donorPick
    comorbidity_score := if d.missComorbidity then none else some d.comorbidityDraw
    disease_type := d.diseasePick
    conditioning_intensity := if d.missCond then none else some d.condPick
    prior_transplants := if d.priorDraw then 1 else 0
    time_from_diagnosis_days := pyClipZ (truncQ d.tfdRaw) 10 5000
    treatment_days :=
      pyClipZ (truncQ ((30 : ℚ) + (d.comorbidityDraw : ℚ) * 5 + d.treatNoise)) 7 365
    survival := if d.survivalDraw then 1 else 0 }

/-- `generate_synthetic_hct_data(n, random_state)`: `n` rows, the `i`-th
built from the `i`-th draws of the seeded generator. -/
def generate_synthetic_hct_data (n : ℕ) (draws : ℕ → RowDraws) : List HctRow :=
  (List.range n).map fun i => makeHctRow (draws i)

/-- The dataframe's column list: nine feature columns plus the binary
outcome, in the order of the `pd.DataFrame` constructor. -/
def hctColumns : List String :=
  ["age", "gender", "donor_type", "comorbidity_score", "disease_type",
   "conditioning_intensity", "prior_transplants", "time_from_diagnosis_days",
   "treatment_days", "survival"]

/-- The explain algorithm as §4.3 of the spec words it (a refinement-spec
definition, to be compared with the code's computation): concatenate the
numeric feature names unchanged with the one-hot expanded category-level
names of each categorical feature; zip scores to names positionally,
dropping scores beyond the name list; sort descending by score; keep the
top 5. -/
def explainSpecAlgorithm (numeric : List String) (cats : List (String × List String))
    (scores : List ℚ) : List (String × ℚ) :=
  let names := numeric ++ cats.flatMap fun fc => fc.2.map fun c => fc.1 ++ "_" ++ c
  (sortDesc (names.zip scores)).take 5

/-! ## Concrete instances used by witnesses -/

/-- The valid patient of the test fixture (`tests/test_api.py`). -/
def samplePatient : PatientInput :=
  { age := 45
    gender := "Female"
    donor_type := "Matched sibling"
    comorbidity_score := 1
    disease_type := "AML"
    conditioning_intensity := "Reduced-intensity"
    prior_transplants := 0
    time_from_diagnosis_days := 180
    treatment_days := 30 }

/-- Fresh process state: both counters zero, empty log. -/
def appState0 : AppState := { prediction_count := 0, error_count := 0, predictionLog := [] }

/-- A small concrete artifact with the fitted transformer layout of
`make_preprocessor` (a `'num'` entry then a `'cat'` entry). -/
def sampleModel : ModelArtifact :=
  { predictProba := fun _ => .ok (7/10)
    featureImportances := [3, 1, 2]
    transformers :=
      [{ name := "num", features := ["age"], categories := [], hasGetFeatureNamesOut := true },
       { name := "cat", features := ["gender"], categories := [["Male", "Female"]],
         hasGetFeatureNamesOut := true },
       { name := "remainder", features := [], categories := [], hasGetFeatureNamesOut := false }]
    explainFails := fun _ => false }

/-- An artifact whose model call raises with the given message. -/
def failingModel (msg : String) : ModelArtifact :=
  { predictProba := fun _ => .error msg
    featureImportances := []
    transformers := []
    explainFails := fun _ => true }

/-- An artifact whose model call succeeds but whose explainability
introspection raises (an `ExplainabilityError` occurrence). -/
def explainFailModel : ModelArtifact :=
  { predictProba := fun _ => .ok (7/10)
    featureImportances := []
    transformers := []
    explainFails := fun _ => true }

/-- An invalid payload: age 15 with the other fields as in the fixture
(`tests/test_api.py`, `test_invalid_age`). -/
def rawAge15 : RawInput :=
  { age := some 15
    gender := some "Female"
    donor_type := some "Matched sibling"
    comorbidity_score := some 1
    disease_type := some "AML"
    conditioning_intensity := some "Reduced-intensity"
    prior_transplants := some 0
    time_from_diagnosis_days := some 180
    treatment_days := some 30 }

/-- A concrete draw record: a Poisson comorbidity draw of 11 (the Poisson
is unbounded above), no masks firing. -/
def sampleDraws : RowDraws :=
  { ageRaw := 45
    genderPick := "Male"
    donorPick := "Cord blood"
    comorbidityDraw := 11
    diseasePick := "AML"
    condPick := "Myeloablative"
    priorDraw := false
    tfdRaw := 100
    treatNoise := 0
    survivalDraw := true
    missDonor := false
    missComorbidity := false
    missCond := false }

/-! ## Helper lemmas on validation -/

theorem validationErrors_ne_nil (r : RawInput) (h : RawViolation r) :
    validationErrors r ≠ [] := by
  rcases h with h | h | h | h | h | h | h | h | h | h | h | h | h | h | h | h | h | h
  · simp [validationErrors, intFieldErrs, h]
  · obtain ⟨v, hv, hbad⟩ := h
    simp [validationErrors, intFieldErrs, hv, hbad]
  · simp [validationErrors, enumFieldErrs, h]
  · obtain ⟨s, hs, hbad⟩ := h
    simp [validationErrors, enumFieldErrs, hs, hbad]
  · simp [validationErrors, enumFieldErrs, h]
  · obtain ⟨s, hs, hbad⟩ := h
    simp [validationErrors, enumFieldErrs, hs, hbad]
  · simp [validationErrors, intFieldErrs, h]
  · obtain ⟨v, hv, hbad⟩ := h
    simp [validationErrors, intFieldErrs, hv, hbad]
  · simp [validationErrors, enumFieldErrs, h]
  · obtain ⟨s, hs, hbad⟩ := h
    simp [validationErrors, enumFieldErrs, hs, hbad]
  · simp [validationErrors, enumFieldErrs, h]
  · obtain ⟨s, hs, hbad⟩ := h
    simp [validationErrors, enumFieldErrs, hs, hbad]
  · simp [validationErrors, intFieldErrs, h]
  · obtain ⟨v, hv, hbad⟩ := h
    simp [validationErrors, intFieldErrs, hv, hbad]
  · simp [validationErrors, intFieldErrs, h]
  · obtain ⟨v, hv, hbad⟩ := h
    simp [validationErrors, intFieldErrs, hv, hbad]
  · simp [validationErrors, intFieldErrs, h]
  · obtain ⟨v, hv, hbad⟩ := h
    simp [validationErrors, intFieldErrs, hv, hbad]

theorem handlePredict_violation (m : ModelArtifact) (st : AppState) (r : RawInput)
    (h : RawViolation r) :
    handlePredict m st r = (st, .unprocessable (validationErrors r)) := by
  have hne := validationErrors_ne_nil r h
  simp [handlePredict, validatePatient, hne]

/-! ## C1: threshold semantics of `predict` -/

/-- C1.  For every valid `PatientRecord`, a successful `predict` returns
the model's probability, which lies in `[0,1]` under the model's
contract, and the label is "Likely to survive" exactly when the
probability is strictly greater than 0.5, "At risk" otherwise — so a
probability of exactly 0.5 yields "At risk". -/
theorem predict_threshold_correct (m : ModelArtifact) (st : AppState)
    (p : PatientInput) (q : ℚ)
    (hp : p.Valid) (hq : m.predictProba p = .ok q) (h0 : 0 ≤ q) (h1 : q ≤ 1) :
    ∃ resp, (predict_survival m st p).2 = .ok resp ∧ resp.probability = q ∧
      0 ≤ resp.probability ∧ resp.probability ≤ 1 ∧
      (resp.prediction = "Likely to survive" ↔ 1/2 < resp.probability) ∧
      (resp.prediction = "At risk" ↔ resp.probability ≤ 1/2) := by
  have hresp :
      (predict_survival m st p).2 = .ok
        { probability := q
          prediction := if q > 1/2 then "Likely to survive" else "At risk"
          explainability :=
            { feature_importance := get_feature_importance m p
              notes := "Higher scores indicate greater influence on survival prediction" }
          disclaimer := disclaimerText } := by
    simp [predict_survival, hq]
  refine ⟨_, hresp, rfl, h0, h1, ?_, ?_⟩
  · show (if q > 1/2 then "Likely to survive" else "At risk") = "Likely to survive" ↔
      1/2 < q
    by_cases hlt : 1/2 < q
    · rw [if_pos (show q > 1/2 from hlt)]
      exact iff_of_true rfl hlt
    · rw [if_neg (show ¬q > 1/2 from hlt)]
      exact iff_of_false (by decide) hlt
  · show (if q > 1/2 then "Likely to survive" else "At risk") = "At risk" ↔ q ≤ 1/2
    by_cases hlt : 1/2 < q
    · rw [if_pos (show q > 1/2 from hlt)]
      exact iff_of_false (by decide) (not_le.mpr hlt)
    · rw [if_neg (show ¬q > 1/2 from hlt)]
      exact iff_of_true rfl (not_lt.mp hlt)

/-- Witness for C1 at the test fixture's patient and a concrete model. -/
theorem predict_threshold_correct_witness :
    ∃ resp, (predict_survival sampleModel appState0 samplePatient).2 = .ok resp ∧
      resp.probability = 7/10 ∧
      0 ≤ resp.probability ∧ resp.probability ≤ 1 ∧
      (resp.prediction = "Likely to survive" ↔ 1/2 < resp.probability) ∧
      (resp.prediction = "At risk" ↔ resp.probability ≤ 1/2) :=
  predict_threshold_correct sampleModel appState0 samplePatient (7/10)
    (by decide) rfl (by norm_num) (by norm_num)

/-! ## C7: determinism of `predict` -/

/-- C7.  `predict` is a pure function of the loaded artifact and the
input record: two invocations with identical input against the same
unmodified artifact produce the identical response (in particular the
identical probability), whatever the metrics state. -/
theorem predict_deterministic (m : ModelArtifact) (p : PatientInput)
    (st₁ st₂ : AppState) :
    (predict_survival m st₁ p).2 = (predict_survival m st₂ p).2 := by
  cases h : m.predictProba p <;> simp [predict_survival, h]

/-! ## C8: what a 500 response carries -/

/-- C8 counterexample.  The claim says any two distinct internal failures
surface the same generic string; but `predict_survival` raises
`HTTPException(status_code=500, detail=str(e))`, so two failures with
different exception messages produce different responses. -/
theorem inference_error_detail_not_generic :
    (predict_survival (failingModel "ValueError: feature mismatch")
        appState0 samplePatient).2 ≠
    (predict_survival (failingModel "KeyError: xgb") appState0 samplePatient).2 := by
  decide

/-- C8 amended.  An `InferenceError` yields a 500 whose detail is exactly
the raised exception's message string (`str(e)`) — no more than a message
string, but not a fixed generic one — and increments the error counter. -/
theorem inference_error_surfaces_exception_detail (m : ModelArtifact)
    (st : AppState) (p : PatientInput) (e : String)
    (h : m.predictProba p = .error e) :
    (predict_survival m st p).2 = .serverError e ∧
    (predict_survival m st p).1.error_count = st.error_count + 1 := by
  constructor <;> simp [predict_survival, h]

/-- Witness for the amended C8 at a concrete failing model. -/
theorem inference_error_surfaces_exception_detail_witness :
    (predict_survival (failingModel "boom") appState0 samplePatient).2 =
      .serverError "boom" ∧
    (predict_survival (failingModel "boom") appState0 samplePatient).1.error_count =
      appState0.error_count + 1 :=
  inference_error_surfaces_exception_detail (failingModel "boom") appState0
    samplePatient "boom" rfl

/-! ## C2: `explain` is total and failures are absorbed -/

/-- C2.  `get_feature_importance` is a total function (the embedding is a
plain `def`): for any input it returns either exactly the fallback
mapping `{"note": "Feature importance unavailable"}` or a mapping of at
most 5 entries whose values are all numeric scores; and an internal
explainability failure never changes the prediction response status — a
successful model call always yields a 200 body. -/
theorem explain_total_and_absorbed (m : ModelArtifact) (p : PatientInput) :
    (get_feature_importance m p = fallbackNote ∨
      ((get_feature_importance m p).length ≤ 5 ∧
        ∀ e ∈ get_feature_importance m p, ∃ q, e.2 = FIValue.num q)) ∧
    (∀ st q, m.predictProba p = .ok q →
      ∃ resp, (predict_survival m st p).2 = .ok resp) := by
  constructor
  · by_cases h : m.explainFails p
    · left
      simp [get_feature_importance, h]
    · right
      constructor
      · have hlen : (featureImportanceTop5 m).length ≤ 5 := List.length_take_le 5 _
        simpa [get_feature_importance, h] using hlen
      · intro e he
        simp only [get_feature_importance, h, if_neg, Bool.false_eq_true,
          ite_false, List.mem_map] at he
        obtain ⟨a, -, rfl⟩ := he
        exact ⟨a.2, rfl⟩
  · intro st q hq
    exact ⟨{ probability := q
             prediction := if q > 1/2 then "Likely to survive" else "At risk"
             explainability :=
               { feature_importance := get_feature_importance m p
                 notes := "Higher scores indicate greater influence on survival prediction" }
             disclaimer := disclaimerText }, by simp [predict_survival, hq]⟩

/-- Witness for C2 at concrete artifacts: the success-path mapping is
bounded and numeric, and an explainability failure still yields a 200. -/
theorem explain_total_and_absorbed_witness :
    (get_feature_importance sampleModel samplePatient).length ≤ 5 ∧
    (∃ q, ("age", FIValue.num 3).2 = FIValue.num q) ∧
    (∃ resp, (predict_survival explainFailModel appState0 samplePatient).2 =
      .ok resp) := by
  have h1 := (explain_total_and_absorbed sampleModel samplePatient).1
  have h2 := (explain_total_and_absorbed explainFailModel samplePatient).2
      appState0 (7/10) rfl
  have h1' := h1.resolve_left (by decide)
  exact ⟨h1'.1, h1'.2 ("age", FIValue.num 3) (by decide), h2⟩

/-! ## C4: schema violations are rejected without side effects -/

/-- C4.  For a payload with any field absent, out of range, or outside
its enum, the request path returns 422 with a nonempty error list, the
process state (both counters and the prediction log) is unchanged, and
the outcome is independent of the model artifact — the Prediction
Service is never consulted. -/
theorem validation_rejects_without_side_effects (m : ModelArtifact)
    (st : AppState) (r : RawInput) (h : RawViolation r) :
    (handlePredict m st r).1 = st ∧
    (∃ errs, errs ≠ [] ∧ (handlePredict m st r).2 = .unprocessable errs) ∧
    (∀ m' : ModelArtifact, handlePredict m' st r = handlePredict m st r) := by
  have h1 := handlePredict_violation m st r h
  refine ⟨by rw [h1], ⟨validationErrors r, validationErrors_ne_nil r h, by rw [h1]⟩, ?_⟩
  intro m'
  rw [handlePredict_violation m' st r h, h1]

/-- Witness for C4 at the test fixture's age-15 payload. -/
theorem validation_rejects_without_side_effects_witness :
    (handlePredict sampleModel appState0 rawAge15).1 = appState0 ∧
    (∃ errs, errs ≠ [] ∧
      (handlePredict sampleModel appState0 rawAge15).2 = .unprocessable errs) ∧
    (∀ m' : ModelArtifact,
      handlePredict m' appState0 rawAge15 = handlePredict sampleModel appState0 rawAge15) :=
  validation_rejects_without_side_effects sampleModel appState0 rawAge15
    (Or.inr (Or.inl ⟨15, rfl, by decide⟩))

/-! ## C5: which events move the error counter -/

/-- C5.  One inference hitting an `InferenceError` increments
`error_count` by exactly 1 and leaves `prediction_count` unchanged; a
`ValidationError` (422 path) leaves `error_count` unchanged; an
`ExplainabilityError` occurrence (the introspection raises while the
model call succeeds) leaves `error_count` unchanged — the request still
completes and increments the success counter. -/
theorem error_counter_semantics (m₁ m₂ : ModelArtifact) (st : AppState)
    (p : PatientInput) (raw : RawInput) (e : String) (q : ℚ)
    (h₁ : m₁.predictProba p = .error e)
    (h₂ : m₂.predictProba p = .ok q)
    (h₃ : m₂.explainFails p = true)
    (h₄ : RawViolation raw) :
    (predict_survival m₁ st p).1.error_count = st.error_count + 1 ∧
    (predict_survival m₁ st p).1.prediction_count = st.prediction_count ∧
    (handlePredict m₂ st raw).1.error_count = st.error_count ∧
    (predict_survival m₂ st p).1.error_count = st.error_count ∧
    (predict_survival m₂ st p).1.prediction_count = st.prediction_count + 1 := by
  refine ⟨?_, ?_, ?_, ?_, ?_⟩
  · simp [predict_survival, h₁]
  · simp [predict_survival, h₁]
  · rw [handlePredict_violation m₂ st raw h₄]
  · simp [predict_survival, h₂]
  · simp [predict_survival, h₂]

/-- Witness for C5: a failing model, a succeeding model whose
explainability raises, and the age-15 payload. -/
theorem error_counter_semantics_witness :
    (predict_survival (failingModel "boom") appState0 samplePatient).1.error_count =
      appState0.error_count + 1 ∧
    (predict_survival (failingModel "boom") appState0 samplePatient).1.prediction_count =
      appState0.prediction_count ∧
    (handlePredict explainFailModel appState0 rawAge15).1.error_count =
      appState0.error_count ∧
    (predict_survival explainFailModel appState0 samplePatient).1.error_count =
      appState0.error_count ∧
    (predict_survival explainFailModel appState0 samplePatient).1.prediction_count =
      appState0.prediction_count + 1 :=
  error_counter_semantics (failingModel "boom") explainFailModel appState0
    samplePatient rawAge15 "boom" (7/10) rfl rfl rfl
    (Or.inr (Or.inl ⟨15, rfl, by decide⟩))

/-! ## C3: the success-path explain algorithm -/

theorem dictInsert_append (d : List (String × ℚ)) (k : String) (v : ℚ)
    (hk : k ∉ d.map Prod.fst) :
    dictInsert d k v = d ++ [(k, v)] := by
  induction d with
  | nil => rfl
  | cons e rest ih =>
      simp only [List.map_cons, List.mem_cons] at hk
      push_neg at hk
      simp only [dictInsert, List.cons_append]
      rw [if_neg (fun h => hk.1 h.symm), ih hk.2]

theorem importanceLoop_eq (names : List String) (hnd : names.Nodup) :
    ∀ (scores : List ℚ) (d : List (String × ℚ)) (i : ℕ),
      (∀ k ∈ d.map Prod.fst, k ∉ names.drop i) →
      importanceLoop names d i scores = d ++ ((names.drop i).zip scores) := by
  intro scores
  induction scores with
  | nil =>
      intro d i _
      simp [importanceLoop]
  | cons s rest ih =>
      intro d i hdisj
      by_cases hi : i < names.length
      · have hdrop : names.drop i = names[i] :: names.drop (i + 1) :=
          List.drop_eq_getElem_cons hi
        have hnodupDrop : (names.drop i).Nodup :=
          List.Nodup.sublist (List.drop_sublist i names) hnd
        have hhead : names[i] ∉ names.drop (i + 1) := by
          rw [hdrop] at hnodupDrop
          exact (List.nodup_cons.mp hnodupDrop).1
        have hkey : names[i] ∉ d.map Prod.fst := by
          intro hk
          exact (hdisj _ hk) (by rw [hdrop]; exact List.mem_cons_self _ _)
        have hins : dictInsert d (names.getD i "") s = d ++ [(names[i], s)] := by
          rw [List.getD_eq_getElem names "" hi]
          exact dictInsert_append d names[i] s hkey
        have hnew : ∀ k ∈ (d ++ [(names[i], s)]).map Prod.fst,
            k ∉ names.drop (i + 1) := by
          intro k hk
          rw [List.map_append] at hk
          rcases List.mem_append.mp hk with hk | hk
          · intro hmem
            exact (hdisj k hk) (by rw [hdrop]; exact List.mem_cons_of_mem _ hmem)
          · simp only [List.map_cons, List.map_nil, List.mem_singleton] at hk
            subst hk
            exact hhead
        calc importanceLoop names d i (s :: rest)
            = importanceLoop names (dictInsert d (names.getD i "") s) (i + 1) rest := by
              simp only [importanceLoop, if_pos hi]
          _ = (d ++ [(names[i], s)]) ++ ((names.drop (i + 1)).zip rest) := by
              rw [hins]
              exact ih _ _ hnew
          _ = d ++ ((names.drop i).zip (s :: rest)) := by
              rw [hdrop, List.zip_cons_cons]
              simp only [List.append_assoc, List.singleton_append]
      · have hdrop : names.drop i = [] := List.drop_eq_nil_of_le (le_of_not_lt hi)
        have hdrop' : names.drop (i + 1) = [] := List.drop_eq_nil_of_le (by omega)
        calc importanceLoop names d i (s :: rest)
            = importanceLoop names d (i + 1) rest := by
              simp only [importanceLoop, if_neg hi]
          _ = d ++ ((names.drop (i + 1)).zip rest) := by
              exact ih d (i + 1) (by rw [hdrop']; simp)
          _ = d ++ ((names.drop i).zip (s :: rest)) := by
              rw [hdrop, hdrop']
              simp

theorem buildImportanceDict_eq_zip (scores : List ℚ) (names : List String)
    (hnd : names.Nodup) :
    buildImportanceDict scores names = names.zip scores := by
  have h := importanceLoop_eq names hnd scores [] 0 (by simp)
  simpa [buildImportanceDict] using h

theorem foldl_reconstructStep_skip (rest : List PreprocTransformer)
    (acc : List String)
    (h : ∀ t ∈ rest, t.name ≠ "num" ∧ t.name ≠ "cat") :
    rest.foldl reconstructStep acc = acc := by
  induction rest generalizing acc with
  | nil => rfl
  | cons t ts ih =>
      have ht := h t (List.mem_cons_self t ts)
      simp only [List.foldl_cons]
      rw [show reconstructStep acc t = acc by simp [reconstructStep, ht.1, ht.2]]
      exact ih acc fun t' ht' => h t' (List.mem_cons_of_mem _ ht')

theorem reconstructFeatureNames_eq (numFeats catFeats : List String)
    (numCats catCats : List (List String)) (numFlag : Bool)
    (rest : List PreprocTransformer)
    (hrest : ∀ t ∈ rest, t.name ≠ "num" ∧ t.name ≠ "cat") :
    reconstructFeatureNames
      ({ name := "num", features := numFeats, categories := numCats,
         hasGetFeatureNamesOut := numFlag } ::
       { name := "cat", features := catFeats, categories := catCats,
         hasGetFeatureNamesOut := true } :: rest) =
      numFeats ++ oneHotFeatureNames catFeats catCats := by
  simp only [reconstructFeatureNames, List.foldl_cons]
  rw [show reconstructStep []
      { name := "num", features := numFeats, categories := numCats,
        hasGetFeatureNamesOut := numFlag } = numFeats by simp [reconstructStep]]
  rw [show reconstructStep numFeats
      { name := "cat", features := catFeats, categories := catCats,
        hasGetFeatureNamesOut := true } = numFeats ++ oneHotFeatureNames catFeats catCats by
    simp [reconstructStep]]
  exact foldl_reconstructStep_skip rest _ hrest

/-- C3.  On the success path, for an artifact with the fitted layout
produced by `make_preprocessor` (a `'num'` transformer, then a `'cat'`
transformer whose one-hot step has `get_feature_names_out`, then only
entries handled by neither branch, such as `'remainder'`), and with the
reconstructed derived names distinct, the code's computation equals the
spec's algorithm: concatenate numeric names with the one-hot expanded
category-level names in transformer order, zip scores positionally
dropping scores beyond the names, sort descending, take the top 5. -/
theorem explain_success_algorithm (m : ModelArtifact)
    (numFeats catFeats : List String) (numCats catCats : List (List String))
    (numFlag : Bool) (rest : List PreprocTransformer)
    (htrans : m.transformers =
      { name := "num", features := numFeats, categories := numCats,
        hasGetFeatureNamesOut := numFlag } ::
      { name := "cat", features := catFeats, categories := catCats,
        hasGetFeatureNamesOut := true } :: rest)
    (hrest : ∀ t ∈ rest, t.name ≠ "num" ∧ t.name ≠ "cat")
    (hnd : (numFeats ++ oneHotFeatureNames catFeats catCats).Nodup) :
    featureImportanceTop5 m =
      explainSpecAlgorithm numFeats (catFeats.zip catCats) m.featureImportances := by
  have hnames : reconstructFeatureNames m.transformers =
      numFeats ++ oneHotFeatureNames catFeats catCats := by
    rw [htrans]
    exact reconstructFeatureNames_eq numFeats catFeats numCats catCats numFlag rest hrest
  simp only [featureImportanceTop5, explainSpecAlgorithm]
  rw [hnames, buildImportanceDict_eq_zip _ _ hnd]
  rfl

/-- Witness for C3 at a concrete fitted artifact. -/
theorem explain_success_algorithm_witness :
    featureImportanceTop5 sampleModel =
      explainSpecAlgorithm ["age"] (["gender"].zip [["Male", "Female"]])
        sampleModel.featureImportances :=
  explain_success_algorithm sampleModel ["age"] ["gender"] [] [["Male", "Female"]]
    true
    [{ name := "remainder", features := [], categories := [],
       hasGetFeatureNamesOut := false }]
    rfl (by decide) (by decide)

/-! ## C6: the per-client rate limit -/

theorem processCalls_append (c : String) (a b : List ℕ) :
    ∀ ls : LimiterState,
      processCalls c ls (a ++ b) =
        ((processCalls c ls a).1 ++ (processCalls c (processCalls c ls a).2 b).1,
         (processCalls c (processCalls c ls a).2 b).2) := by
  induction a with
  | nil => intro ls; simp [processCalls]
  | cons t ts ih =>
      intro ls
      simp only [List.cons_append, processCalls, List.append_eq]
      rw [ih]

theorem processCalls_all_allowed (c : String) :
    ∀ (ts : List ℕ) (ls : LimiterState),
      ts.length + ls.hits.length ≤ 10 →
      (∀ h ∈ ls.hits, h.1 = c) →
      (∀ y ∈ ts, ∀ h ∈ ls.hits, y < h.2 + 60) →
      (∀ x ∈ ts, ∀ y ∈ ts, x < y + 60) →
      processCalls c ls ts =
        (List.replicate ts.length true,
         ⟨(ts.map fun t => (c, t)).reverse ++ ls.hits⟩) := by
  intro ts
  induction ts with
  | nil => intro ls _ _ _ _; simp [processCalls]
  | cons t rest ih =>
      intro ls hlen hc hwin hpair
      have hfilter : recentHits ls c t = ls.hits := by
        unfold recentHits
        rw [List.filter_eq_self]
        intro e he
        have h1 : e.1 = c := hc e he
        have h2 : t < e.2 + 60 := hwin t (List.mem_cons_self _ _) e he
        simp [h1, h2]
      have hallow : rateLimitCheck ls c t = (true, ⟨(c, t) :: ls.hits⟩) := by
        unfold rateLimitCheck
        rw [hfilter, if_pos (by simp at hlen; omega)]
      have hih := ih ⟨(c, t) :: ls.hits⟩
        (by simp at hlen ⊢; omega)
        (by
          intro h hh
          rcases List.mem_cons.mp hh with hh | hh
          · rw [hh]
          · exact hc h hh)
        (by
          intro y hy h hh
          rcases List.mem_cons.mp hh with hh | hh
          · rw [hh]
            exact hpair y (List.mem_cons_of_mem _ hy) t (List.mem_cons_self _ _)
          · exact hwin y (List.mem_cons_of_mem _ hy) h hh)
        (by
          intro x hx y hy
          exact hpair x (List.mem_cons_of_mem _ hx) y (List.mem_cons_of_mem _ hy))
      show (let r := rateLimitCheck ls c t
            let rest' := processCalls c r.2 rest
            (r.1 :: rest'.1, rest'.2)) = _
      rw [hallow]
      simp only [hih, List.length_cons, List.replicate_succ, List.map_cons,
        List.reverse_cons, List.append_assoc, List.singleton_append]

/-- C6.  Modelled from the spec (the limiter is the third-party `slowapi`
library; §5 fixes the policy): starting from a fresh limiter, in any
sequence of 11 `/predict` calls from one client identity within 60
seconds the first 10 are admitted and the 11th is rejected with the
rate-limited condition; the rejected request leaves the limiter state
exactly as it was — dropped, not queued or delayed. -/
theorem rate_limit_eleventh_rejected (c : String) (ts10 : List ℕ) (tlast : ℕ)
    (hlen : ts10.length = 10)
    (hwin : ∀ x ∈ ts10 ++ [tlast], ∀ y ∈ ts10 ++ [tlast], x < y + 60) :
    (processCalls c ⟨[]⟩ (ts10 ++ [tlast])).1 =
      List.replicate 10 true ++ [false] ∧
    (processCalls c ⟨[]⟩ (ts10 ++ [tlast])).2 =
      (processCalls c ⟨[]⟩ ts10).2 := by
  have h10 := processCalls_all_allowed c ts10 ⟨[]⟩
    (by simp [hlen])
    (by simp)
    (by simp)
    (by
      intro x hx y hy
      exact hwin x (List.mem_append_left _ hx) y (List.mem_append_left _ hy))
  have hstate : (processCalls c ⟨[]⟩ ts10).2 =
      ⟨(ts10.map fun t => (c, t)).reverse⟩ := by
    rw [h10]
    simp
  have hfull : recentHits ⟨(ts10.map fun t => (c, t)).reverse⟩ c tlast =
      (ts10.map fun t => (c, t)).reverse := by
    unfold recentHits
    rw [List.filter_eq_self]
    intro e he
    rw [List.mem_reverse] at he
    obtain ⟨t, ht, rfl⟩ := List.mem_map.mp he
    have h2 : tlast < t + 60 :=
      hwin tlast (List.mem_append_right _ (List.mem_singleton_self _))
        t (List.mem_append_left _ ht)
    simp [h2]
  have hreject : rateLimitCheck ⟨(ts10.map fun t => (c, t)).reverse⟩ c tlast =
      (false, ⟨(ts10.map fun t => (c, t)).reverse⟩) := by
    unfold rateLimitCheck
    rw [hfull, if_neg]
    rw [List.length_reverse, List.length_map, hlen]
    omega
  have happ := processCalls_append c ts10 [tlast] ⟨[]⟩
  constructor
  · rw [happ]
    rw [hstate]
    show (processCalls c ⟨[]⟩ ts10).1 ++
        (let r := rateLimitCheck ⟨(ts10.map fun t => (c, t)).reverse⟩ c tlast
         let rest' := processCalls c r.2 []
         (r.1 :: rest'.1, rest'.2)).1 = _
    rw [hreject, h10]
    simp [hlen, processCalls]
  · rw [happ]
    rw [hstate]
    show (let r := rateLimitCheck ⟨(ts10.map fun t => (c, t)).reverse⟩ c tlast
          let rest' := processCalls c r.2 []
          (r.1 :: rest'.1, rest'.2)).2 = _
    rw [hreject]
    simp [processCalls]

/-- Witness for C6: eleven calls from one address inside one minute. -/
theorem rate_limit_eleventh_rejected_witness :
    (processCalls "127.0.0.1" ⟨[]⟩
        ([0, 5, 10, 15, 20, 25, 30, 35, 40, 45] ++ [59])).1 =
      List.replicate 10 true ++ [false] ∧
    (processCalls "127.0.0.1" ⟨[]⟩
        ([0, 5, 10, 15, 20, 25, 30, 35, 40, 45] ++ [59])).2 =
      (processCalls "127.0.0.1" ⟨[]⟩ [0, 5, 10, 15, 20, 25, 30, 35, 40, 45]).2 :=
  rate_limit_eleventh_rejected "127.0.0.1" [0, 5, 10, 15, 20, 25, 30, 35, 40, 45]
    59 rfl (by decide)

/-! ## C9: the metadata sidecar path -/

theorem pyReplacePkl_cons_of_ne (c : Char) (cs : List Char)
    (h : ¬(c = '.' ∧ cs.take 3 = ['p', 'k', 'l'])) :
    pyReplacePkl (c :: cs) = c :: pyReplacePkl cs := by
  unfold pyReplacePkl
  split
  · rename_i rest heq
    injection heq with h1 h2
    exact absurd ⟨h1, by rw [h2]; rfl⟩ h
  · rename_i x hno
    injection hno with h1 h2
    rw [h1, h2, ← pyReplacePkl.eq_def]
  · rename_i heq
    simp at heq

theorem hasPkl_cons_of_ne (c : Char) (cs : List Char)
    (h : ¬(c = '.' ∧ cs.take 3 = ['p', 'k', 'l'])) :
    hasPkl (c :: cs) = hasPkl cs := by
  unfold hasPkl
  split
  · rename_i rest heq
    injection heq with h1 h2
    exact absurd ⟨h1, by rw [h2]; rfl⟩ h
  · rename_i x hno
    injection hno with h1 h2
    rw [h2, ← hasPkl.eq_def]
  · rename_i heq
    simp at heq

theorem hasPkl_cons_take (c : Char) (cs : List Char)
    (h : c = '.' ∧ cs.take 3 = ['p', 'k', 'l']) :
    hasPkl (c :: cs) = true := by
  obtain ⟨rfl, htake⟩ := h
  cases cs with
  | nil => simp at htake
  | cons b bs =>
    cases bs with
    | nil => simp at htake
    | cons d ds =>
      cases ds with
      | nil => simp at htake
      | cons e es =>
        simp only [List.take_succ_cons, List.take_zero, List.cons.injEq, and_true] at htake
        obtain ⟨rfl, rfl, rfl⟩ := htake
        rfl

theorem takeThree_append_pkl (cs : List Char)
    (htake : (cs ++ ['.', 'p', 'k', 'l']).take 3 = ['p', 'k', 'l']) :
    cs.take 3 = ['p', 'k', 'l'] := by
  cases cs with
  | nil => simp at htake
  | cons b bs =>
    cases bs with
    | nil =>
      simp only [List.cons_append, List.nil_append, List.take_succ_cons,
        List.take_zero, List.cons.injEq, and_true] at htake
      exact absurd htake.2.1 (by decide)
    | cons d ds =>
      cases ds with
      | nil =>
        simp only [List.cons_append, List.nil_append, List.take_succ_cons,
          List.take_zero, List.cons.injEq, and_true] at htake
        exact absurd htake.2.2 (by decide)
      | cons e es =>
        simpa using htake

theorem pyReplacePkl_append_pkl (s : List Char) (h : hasPkl s = false) :
    pyReplacePkl (s ++ ['.', 'p', 'k', 'l']) =
      s ++ ['_', 'i', 'n', 'f', 'o', '.', 'p', 'k', 'l'] := by
  induction s with
  | nil => rfl
  | cons c cs ih =>
      have hno : ¬(c = '.' ∧ (cs ++ ['.', 'p', 'k', 'l']).take 3 = ['p', 'k', 'l']) := by
        rintro ⟨rfl, htake⟩
        have htrue := hasPkl_cons_take '.' cs ⟨rfl, takeThree_append_pkl cs htake⟩
        rw [htrue] at h
        cases h
      have hcs : hasPkl cs = false := by
        by_cases hm : c = '.' ∧ cs.take 3 = ['p', 'k', 'l']
        · rw [hasPkl_cons_take c cs hm] at h
          cases h
        · rw [hasPkl_cons_of_ne c cs hm] at h
          exact h
      rw [List.cons_append, pyReplacePkl_cons_of_ne c _ hno, ih hcs, List.cons_append]

/-- C9 counterexample.  The claim says the metadata path is the pipeline
path with its extension replaced by `_info` plus the same extension; but
both sides use Python `replace('.pkl', '_info.pkl')`, which does nothing
to a path whose extension is not `.pkl`: for `model.joblib` the server
would load `model.joblib` itself, not `model_info.joblib`. -/
theorem info_path_not_extension_replacement :
    load_model_info_path "model.joblib" ≠ sidecarPathSpecExt "model.joblib" := by
  decide

/-- C9 amended.  The metadata path is obtained by replacing every
occurrence of `.pkl` with `_info.pkl` (Python `str.replace`); the trainer
and the server apply the same rule, so they agree on every pipeline path,
and for a path of the form `stem.pkl` whose stem contains no other
`.pkl` occurrence this coincides with replacing the extension by `_info`
plus the same extension. -/
theorem info_path_replace_semantics (stem : String)
    (hstem : hasPkl stem.data = false) :
    (∀ p : String, load_model_info_path p = export_info_path p) ∧
    load_model_info_path (stem ++ ".pkl") = stem ++ "_info.pkl" := by
  constructor
  · intro p
    rfl
  · apply String.ext
    show pyReplacePkl (stem ++ ".pkl").data = (stem ++ "_info.pkl").data
    rw [String.data_append, String.data_append]
    calc pyReplacePkl (stem.data ++ (".pkl" : String).data)
        = pyReplacePkl (stem.data ++ ['.', 'p', 'k', 'l']) := rfl
      _ = stem.data ++ ['_', 'i', 'n', 'f', 'o', '.', 'p', 'k', 'l'] :=
          pyReplacePkl_append_pkl stem.data hstem
      _ = stem.data ++ ("_info.pkl" : String).data := rfl

/-- Witness for the amended C9 at the default artifact name `model.pkl`. -/
theorem info_path_replace_semantics_witness :
    (∀ p : String, load_model_info_path p = export_info_path p) ∧
    load_model_info_path ("model" ++ ".pkl") = "model" ++ "_info.pkl" :=
  info_path_replace_semantics "model" (by decide)

/-! ## C10: shape and ranges of the synthetic dataset -/

theorem pyClipQ_bounds (q lo hi : ℚ) (h : lo ≤ hi) :
    lo ≤ pyClipQ q lo hi ∧ pyClipQ q lo hi ≤ hi :=
  ⟨le_max_left _ _, max_le h (min_le_right _ _)⟩

theorem pyClipZ_bounds (x lo hi : ℤ) (h : lo ≤ hi) :
    lo ≤ pyClipZ x lo hi ∧ pyClipZ x lo hi ≤ hi :=
  ⟨le_max_left _ _, max_le h (min_le_right _ _)⟩

theorem truncQ_bounds (q : ℚ) (a b : ℤ) (ha : 0 ≤ a)
    (h1 : (a : ℚ) ≤ q) (h2 : q ≤ (b : ℚ)) :
    a ≤ truncQ q ∧ truncQ q ≤ b := by
  have h0 : (0 : ℚ) ≤ q := le_trans (by exact_mod_cast ha) h1
  unfold truncQ
  rw [if_pos h0]
  refine ⟨Int.le_floor.mpr h1, ?_⟩
  have hb := Int.floor_le_floor h2
  rwa [Int.floor_intCast] at hb

theorem makeHctRow_age_bounds (d : RowDraws) :
    18 ≤ (makeHctRow d).age ∧ (makeHctRow d).age ≤ 80 := by
  have hc := pyClipQ_bounds d.ageRaw 18 80 (by norm_num)
  exact truncQ_bounds (pyClipQ d.ageRaw 18 80) 18 80 (by norm_num)
    (by exact_mod_cast hc.1) (by exact_mod_cast hc.2)

/-- C10.  `generate_synthetic_hct_data` yields exactly `n` rows (the
`i`-th built from the `i`-th draws), the dataframe has exactly the nine
feature columns plus the binary outcome in the fixed constructor order,
every row satisfies `age ∈ [18,80]`, `prior_transplants ∈ {0,1}`,
`survival ∈ {0,1}`, `treatment_days ∈ [7,365]`,
`time_from_diagnosis_days ∈ [10,5000]`, missing values arise exactly
when a mask fires and only in `donor_type`, `comorbidity_score` and
`conditioning_intensity` (every other column always carries its value),
and the Poisson-drawn `comorbidity_score` is not bounded above by 10. -/
theorem synthetic_data_shape_and_ranges (n : ℕ) (draws : ℕ → RowDraws) :
    (generate_synthetic_hct_data n draws).length = n ∧
    hctColumns = ["age", "gender", "donor_type", "comorbidity_score",
      "disease_type", "conditioning_intensity", "prior_transplants",
      "time_from_diagnosis_days", "treatment_days", "survival"] ∧
    (∀ i, i < n →
      (generate_synthetic_hct_data n draws)[i]? = some (makeHctRow (draws i))) ∧
    (∀ r ∈ generate_synthetic_hct_data n draws,
      18 ≤ r.age ∧ r.age ≤ 80 ∧
      (r.prior_transplants = 0 ∨ r.prior_transplants = 1) ∧
      (r.survival = 0 ∨ r.survival = 1) ∧
      7 ≤ r.treatment_days ∧ r.treatment_days ≤ 365 ∧
      10 ≤ r.time_from_diagnosis_days ∧ r.time_from_diagnosis_days ≤ 5000) ∧
    (∀ d : RowDraws,
      (makeHctRow d).gender = d.genderPick ∧
      (makeHctRow d).disease_type = d.diseasePick ∧
      (makeHctRow d).donor_type = (if d.missDonor then none else some d.donorPick) ∧
      (makeHctRow d).comorbidity_score =
        (if d.missComorbidity then none else some d.comorbidityDraw) ∧
      (makeHctRow d).conditioning_intensity =
        (if d.missCond then none else some d.condPick)) ∧
    (∃ d : RowDraws, (makeHctRow d).comorbidity_score = some 11 ∧ (10 : ℕ) < 11) := by
  refine ⟨?_, rfl, ?_, ?_, ?_, ?_⟩
  · simp [generate_synthetic_hct_data]
  · intro i hi
    simp [generate_synthetic_hct_data, List.getElem?_map, List.getElem?_range hi]
  · intro r hr
    simp only [generate_synthetic_hct_data, List.mem_map, List.mem_range] at hr
    obtain ⟨i, -, rfl⟩ := hr
    refine ⟨(makeHctRow_age_bounds (draws i)).1, (makeHctRow_age_bounds (draws i)).2,
      ?_, ?_, ?_, ?_, ?_, ?_⟩
    · cases h : (draws i).priorDraw <;> simp [makeHctRow, h]
    · cases h : (draws i).survivalDraw <;> simp [makeHctRow, h]
    · exact (pyClipZ_bounds _ 7 365 (by norm_num)).1
    · exact (pyClipZ_bounds _ 7 365 (by norm_num)).2
    · exact (pyClipZ_bounds _ 10 5000 (by norm_num)).1
    · exact (pyClipZ_bounds _ 10 5000 (by norm_num)).2
  · intro d
    exact ⟨rfl, rfl, rfl, rfl, rfl⟩
  · exact ⟨sampleDraws, rfl, by norm_num⟩

/-- Witness for C10 at one concrete draw. -/
theorem synthetic_data_shape_and_ranges_witness :
    (generate_synthetic_hct_data 1 fun _ => sampleDraws).length = 1 ∧
    (generate_synthetic_hct_data 1 fun _ => sampleDraws)[0]? =
      some (makeHctRow sampleDraws) ∧
    18 ≤ (makeHctRow sampleDraws).age ∧ (makeHctRow sampleDraws).age ≤ 80 ∧
    (makeHctRow sampleDraws).comorbidity_score = some 11 := by
  have h := synthetic_data_shape_and_ranges 1 fun _ => sampleDraws
  have hmem : makeHctRow sampleDraws ∈ generate_synthetic_hct_data 1 fun _ => sampleDraws := by
    refine List.mem_map.mpr ⟨0, ?_, rfl⟩
    simp
  have hb := h.2.2.2.1 (makeHctRow sampleDraws) hmem
  exact ⟨h.1, h.2.2.1 0 (by norm_num), hb.1, hb.2.1, rfl⟩
